import Mathlib

/-!
Shallow embedding of the query-processing path of `main.py` (GHL task manager).

Conventions of the embedding:
* Python strings are modelled as `String` / `List Char`; `str.strip`, `str.replace`,
  `str.lower` and the substring test `in` are re-implemented below on `List Char`
  exactly as CPython behaves on the ASCII fragment the program manipulates.
* The three outbound HTTP/model calls are modelled by environment fields carrying the
  parsed response (or `none` for a raised `requests.exceptions.RequestException`,
  resp. a raised model error).
* `json.loads` is modelled by `json_loads`, a recursive-descent parser for the JSON
  fragment this program consumes: objects whose values are strings, integers,
  booleans, null, or arrays of those atoms.  String escapes are limited to
  backslash-quote, backslash-backslash, n, t, r.  Like CPython's strict decoder it
  rejects trailing commas, leading-zero integers, and unescaped control characters
  in strings; constructs outside the fragment are rejected, never mis-decoded.
* Python runtime exceptions that can escape `process_query` are modelled by
  `Except PyExc`; `PyExc.typeError` stands for `TypeError` (notably the one raised by
  the set display `return {\x7b\x7d}` on line 153 of main.py, a set containing an
  unhashable dict), `PyExc.attributeError` for `AttributeError`.
* Truthiness (`if x:`) is modelled by the `...Truthy` functions.
-/

/-! ### Python string primitives -/

/-- The backtick character (u0060), written via its code to keep source plain. -/
def bq : Char := Char.ofNat 96

/-- Opening curly brace character. -/
def lcurly : Char := Char.ofNat 123

/-- Closing curly brace character. -/
def rcurly : Char := Char.ofNat 125

/-- Whitespace characters recognised by Python's `str.strip` (ASCII fragment). -/
def pyWs (c : Char) : Bool := c == ' ' || c == '\n' || c == '\t' || c == '\r'

/-- Python `str.strip()` on a character list: drop whitespace at both ends. -/
def pyStripL (l : List Char) : List Char :=
  ((l.dropWhile pyWs).reverse.dropWhile pyWs).reverse

/-- Python `"abc".replace("\x60\x60\x60json", "")`: delete every occurrence of the
7-character opening fence marker, scanning left to right, non-overlapping. -/
def removeJsonTicksL : List Char → List Char
  | c1 :: c2 :: c3 :: c4 :: c5 :: c6 :: c7 :: cs =>
    if c1 == bq && c2 == bq && c3 == bq && c4 == 'j' && c5 == 's' && c6 == 'o' && c7 == 'n'
    then removeJsonTicksL cs
    else c1 :: removeJsonTicksL (c2 :: c3 :: c4 :: c5 :: c6 :: c7 :: cs)
  | l => l

/-- Python `str.replace` deleting every occurrence of the 3-backtick fence marker. -/
def removeTicksL : List Char → List Char
  | c1 :: c2 :: c3 :: cs =>
    if c1 == bq && c2 == bq && c3 == bq then removeTicksL cs
    else c1 :: removeTicksL (c2 :: c3 :: cs)
  | l => l

/-- Line 147 of main.py:
`response.text.strip().replace("\x60\x60\x60json", "").replace("\x60\x60\x60", "").strip()`. -/
def stripFencesL (l : List Char) : List Char :=
  pyStripL (removeTicksL (removeJsonTicksL (pyStripL l)))

/-- String-level wrapper for the fence-stripping step of
`get_interpretation_from_gemini`. -/
def stripFences (s : String) : String := String.mk (stripFencesL s.data)

/-- Python `str.lower` on one character (ASCII fragment). -/
def pyLowerC (c : Char) : Char :=
  if 'A' ≤ c ∧ c ≤ 'Z' then Char.ofNat (c.toNat + 32) else c

/-- Python `str.lower` (ASCII fragment). -/
def pyLowerS (s : String) : String := String.mk (s.data.map pyLowerC)

/-- Substring occurrence test on character lists: does `p` occur contiguously in the
second argument?  (Python's `p in s` for strings.) -/
def containsL (p : List Char) : List Char → Bool
  | [] => p.isEmpty
  | c :: cs => p.isPrefixOf (c :: cs) || containsL p cs

/-- Python `sub in hay` for strings. -/
def pyInStr (sub hay : String) : Bool := containsL sub.data hay.data

/-- Python slicing `l[:n]` for an arbitrary (possibly negative) integer bound. -/
def pyTake {α : Type} (l : List α) (n : Int) : List α :=
  if 0 ≤ n then l.take n.toNat else l.take (l.length - n.natAbs)

/-! ### The JSON fragment consumed by the program, and `json.loads` on it -/

/-- Atomic JSON values appearing in the model's filter object. -/
inductive JAtom where
  | jstr (s : String)
  | jnum (n : Int)
  | jtrue
  | jfalse
  | jnull
deriving Repr, DecidableEq

/-- A JSON value that can sit under a key of the filter object: an atom or an array
of atoms. -/
inductive JVal where
  | atom (a : JAtom)
  | arr (l : List JAtom)
deriving Repr, DecidableEq

/-- A decoded JSON document: a top-level value or an object (assoc list, in source
order; duplicate keys allowed, lookup takes the last one as Python dicts do). -/
inductive Json where
  | val (v : JVal)
  | obj (entries : List (String × JVal))
deriving Repr, DecidableEq

/-- Skip JSON whitespace. -/
def skipWs (l : List Char) : List Char := l.dropWhile pyWs

/-- Parse the body of a JSON string after the opening quote.  Returns the decoded
characters and the rest of the input after the closing quote.  As in CPython's
strict decoder, an unescaped control character (codepoint below 32) is rejected. -/
def parseStringCs : List Char → Option (List Char × List Char)
  | [] => none
  | c :: cs =>
    if c == '"' then some ([], cs)
    else if c == '\\' then
      match cs with
      | [] => none
      | d :: cs2 =>
        let e : Option Char :=
          if d == '"' then some '"'
          else if d == '\\' then some '\\'
          else if d == 'n' then some '\n'
          else if d == 't' then some '\t'
          else if d == 'r' then some '\r'
          else none
        match e with
        | some ec =>
          match parseStringCs cs2 with
          | some (body, rest) => some (ec :: body, rest)
          | none => none
        | none => none
    else if c.toNat < 32 then none
    else
      match parseStringCs cs with
      | some (body, rest) => some (c :: body, rest)
      | none => none

/-- Longest prefix of decimal digits. -/
def spanDigits : List Char → (List Char × List Char)
  | [] => ([], [])
  | c :: cs =>
    if c.isDigit then
      let (d, r) := spanDigits cs
      (c :: d, r)
    else ([], c :: cs)

/-- Digits to a natural number. -/
def digitsToNat (l : List Char) : Nat :=
  l.foldl (fun a c => a * 10 + (c.toNat - 48)) 0

/-- A digit sequence with a superfluous leading zero, which JSON number syntax
(and hence CPython's decoder) rejects. -/
def hasLeadingZero : List Char → Bool
  | '0' :: _ :: _ => true
  | _ => false

/-- Parse an optionally-signed integer literal.  Leading zeros are rejected, as in
JSON number syntax. -/
def parseIntCs (l : List Char) : Option (Int × List Char) :=
  match l with
  | '-' :: cs =>
    match spanDigits cs with
    | ([], _) => none
    | (ds, r) =>
      if hasLeadingZero ds then none else some (-(digitsToNat ds : Int), r)
  | cs =>
    match spanDigits cs with
    | ([], _) => none
    | (ds, r) =>
      if hasLeadingZero ds then none else some ((digitsToNat ds : Int), r)

/-- Parse one JSON atom (string, number, true, false, null) at the given position. -/
def parseAtom (cs : List Char) : Option (JAtom × List Char) :=
  match cs with
  | '"' :: rest =>
    match parseStringCs rest with
    | some (l, r) => some (JAtom.jstr (String.mk l), r)
    | none => none
  | _ =>
    if "true".data.isPrefixOf cs then some (JAtom.jtrue, cs.drop 4)
    else if "false".data.isPrefixOf cs then some (JAtom.jfalse, cs.drop 5)
    else if "null".data.isPrefixOf cs then some (JAtom.jnull, cs.drop 4)
    else
      match parseIntCs cs with
      | some (n, r) => some (JAtom.jnum n, r)
      | none => none

/-- Parse the items of a JSON array of atoms, positioned right after `[`.
`allowClose` is true only for the position right after the opening bracket, so a
trailing comma before `]` is rejected, as in CPython's decoder. -/
def parseAtomList (fuel : Nat) (allowClose : Bool) (cs : List Char) :
    Option (List JAtom × List Char) :=
  match fuel with
  | 0 => none
  | f + 1 =>
    match skipWs cs with
    | [] => none
    | c :: rest =>
      if c == ']' then (if allowClose then some ([], rest) else none)
      else
        match parseAtom (c :: rest) with
        | none => none
        | some (a, r1) =>
          match skipWs r1 with
          | ',' :: r2 =>
            match parseAtomList f false r2 with
            | none => none
            | some (l, r3) => some (a :: l, r3)
          | c2 :: r2 => if c2 == ']' then some ([a], r2) else none
          | [] => none

/-- Parse a JSON value of the fragment: an array of atoms or an atom. -/
def parseJVal (cs : List Char) : Option (JVal × List Char) :=
  match skipWs cs with
  | '[' :: rest =>
    match parseAtomList (rest.length + 1) true rest with
    | some (l, r) => some (JVal.arr l, r)
    | none => none
  | cs2 =>
    match parseAtom cs2 with
    | some (a, r) => some (JVal.atom a, r)
    | none => none

/-- Parse the entries of a JSON object, positioned right after the opening brace.
`allowClose` is true only for the position right after the opening brace, so a
trailing comma before the closing brace is rejected, as in CPython's decoder. -/
def parseEntryList (fuel : Nat) (allowClose : Bool) (cs : List Char) :
    Option (List (String × JVal) × List Char) :=
  match fuel with
  | 0 => none
  | f + 1 =>
    match skipWs cs with
    | [] => none
    | c :: rest =>
      if c == rcurly then (if allowClose then some ([], rest) else none)
      else if c == '"' then
        match parseStringCs rest with
        | none => none
        | some (key, r1) =>
          match skipWs r1 with
          | ':' :: r2 =>
            match parseJVal r2 with
            | none => none
            | some (v, r3) =>
              match skipWs r3 with
              | ',' :: r4 =>
                match parseEntryList f false r4 with
                | none => none
                | some (es, r5) => some ((String.mk key, v) :: es, r5)
              | c2 :: r4 => if c2 == rcurly then some ([(String.mk key, v)], r4) else none
              | [] => none
          | _ => none
      else none

/-- `json.loads` on the modelled fragment: a full document, allowing surrounding
whitespace, failing (like the Python call raising `JSONDecodeError`) on anything
else.  Returns `none` for a parse failure.  Like CPython's decoder it rejects
trailing commas, integers with leading zeros, and unescaped control characters in
strings; constructs outside the modelled fragment (floats, further escape forms,
nested containers) are rejected rather than decoded. -/
def json_loads (s : String) : Option Json :=
  match skipWs s.data with
  | [] => none
  | c :: rest =>
    if c == lcurly then
      match parseEntryList (rest.length + 1) true rest with
      | some (es, r) => if (skipWs r).isEmpty then some (Json.obj es) else none
      | none => none
    else
      match parseJVal (c :: rest) with
      | some (v, r) => if (skipWs r).isEmpty then some (Json.val v) else none
      | none => none

/-! ### Python dynamic semantics on decoded JSON -/

/-- Python truthiness of an atomic value. -/
def atomTruthy : JAtom → Bool
  | JAtom.jstr s => s != ""
  | JAtom.jnum n => n != 0
  | JAtom.jtrue => true
  | JAtom.jfalse => false
  | JAtom.jnull => false

/-- Python truthiness of a decoded value. -/
def jvalTruthy : JVal → Bool
  | JVal.atom a => atomTruthy a
  | JVal.arr l => !l.isEmpty

/-- Python `dict.get` with no default on the decoded object: last binding of the key
wins, as for duplicate keys in `json.loads`. -/
def dictGet (entries : List (String × JVal)) (k : String) : Option JVal :=
  ((entries.filter (fun e => e.1 == k)).reverse.head?).map (fun e => e.2)

/-- Python `repr`/`str` of an atomic value (`str` quotes with apostrophes). -/
def pyReprAtom : JAtom → String
  | JAtom.jstr s => "\x27" ++ s ++ "\x27"
  | JAtom.jnum n => toString n
  | JAtom.jtrue => "True"
  | JAtom.jfalse => "False"
  | JAtom.jnull => "None"

/-- Python `repr`/`str` of a decoded value. -/
def pyReprJVal : JVal → String
  | JVal.atom a => pyReprAtom a
  | JVal.arr l => "[" ++ String.intercalate ", " (l.map pyReprAtom) ++ "]"

/-- Python `str` of a decoded document (dicts print with braces and quoted keys). -/
def pyReprJson : Json → String
  | Json.val v => pyReprJVal v
  | Json.obj entries =>
    "\x7b" ++
      String.intercalate ", "
        (entries.map (fun e => "\x27" ++ e.1 ++ "\x27: " ++ pyReprJVal e.2)) ++
      "\x7d"

/-- Python `repr` of a list of strings, as printed for the available pipeline names. -/
def pyReprStrList (l : List String) : String :=
  "[" ++ String.intercalate ", " (l.map (fun s => "\x27" ++ s ++ "\x27")) ++ "]"

/-! ### Data model (section 3 of the spec, as consumed by main.py) -/

/-- A CRM pipeline record; `p["name"]` and `p["id"]` are both accessed unconditionally
by `process_query`, so they are mandatory fields. -/
structure Pipeline where
  name : String
  id : String
deriving Repr, DecidableEq

/-- A task attached to an opportunity; every field is read with `dict.get`, so each
is optional.  (Named `GhlTask` because `Task` is taken by the Lean core library.) -/
structure GhlTask where
  title : Option String
  dueDate : Option String
  completed : Option Bool
deriving Repr, DecidableEq

/-- An opportunity; fields are read with `dict.get` and may be absent. -/
structure Opportunity where
  name : Option String
  pipelineName : Option String
  tasks : Option (List GhlTask)
deriving Repr, DecidableEq

/-- The parsed JSON body of a successful pipelines response; the `pipelines` key may
be absent (`.get("pipelines", [])`). -/
structure PipelinesBody where
  pipelines : Option (List Pipeline)
deriving Repr, DecidableEq

/-- The parsed JSON body of a successful opportunity-search response. -/
structure OpportunitiesBody where
  opportunities : Option (List Opportunity)
deriving Repr, DecidableEq

/-- Python exceptions that can escape the modelled code. -/
inductive PyExc where
  | typeError
  | attributeError
deriving Repr, DecidableEq

deriving instance DecidableEq for Except

/-- Environment of one model-interpretation call: whether `genai.get_model` returns a
truthy handle, and the response text of `generate_content` (`none` = the call
raised). -/
structure GeminiEnv where
  modelAvailable : Bool
  responseText : Option String
deriving Repr, DecidableEq

/-- Environment of one whole query: the model call plus the two CRM fetches
(`none` = `requests` raised / non-2xx status, which `raise_for_status` turns into an
exception caught by the function). -/
structure Env where
  gemini : GeminiEnv
  pipelinesResp : Option PipelinesBody
  opportunitiesResp : Option OpportunitiesBody
deriving Repr, DecidableEq

/-! ### The GHL API functions (main.py lines 35-102) -/

/-- `get_all_pipelines` (main.py lines 35-61): on success return the `pipelines`
field (defaulting to `[]`), on any request exception return `None`. -/
def get_all_pipelines (resp : Option PipelinesBody) : Option (List Pipeline) :=
  match resp with
  | some body => some (body.pipelines.getD [])
  | none => none

/-- `get_ghl_opportunities` (main.py lines 63-102): on success return the
`opportunities` field (defaulting to `[]`), on any request exception return `[]`.
The pipeline id and status only parametrise the HTTP request, which the environment
abstracts. -/
def get_ghl_opportunities (pipeline_id : String) (status : JVal)
    (resp : Option OpportunitiesBody) : List Opportunity :=
  match resp with
  | some body => body.opportunities.getD []
  | none =>
    let _ := pipeline_id
    let _ := status
    []

/-! ### The Gemini interpretation call (main.py lines 106-153) -/

/-- `get_interpretation_from_gemini` (main.py lines 106-153).
* Model unavailable (line 109): returns `None` (modelled `Except.ok none`).
* `generate_content` raised, or the fence-stripped text is not valid JSON: the
  `except` branch executes `return {\x7b\x7d}` (line 153), a set display containing a
  dict, which raises `TypeError: unhashable type` — modelled `Except.error .typeError`.
* Otherwise the decoded document is returned. -/
def get_interpretation_from_gemini (g : GeminiEnv) : Except PyExc (Option Json) :=
  if !g.modelAvailable then Except.ok none
  else
    match g.responseText with
    | none => Except.error PyExc.typeError
    | some text =>
      match json_loads (stripFences text) with
      | some j => Except.ok (some j)
      | none => Except.error PyExc.typeError

/-! ### Report lines (the f-strings appended to `output_lines`) -/

/-- The configured default pipeline name (main.py line 21). -/
def DEFAULT_PIPELINE_NAME : String := "Client Software Development Pipeline"

/-- Line 163. -/
def noQueryLine : String := "No query provided."

/-- Line 169. -/
def interpLine (j : Json) : String := "Gemini interpretation: " ++ pyReprJson j

/-- Line 177. -/
def defaultPipelineLine : String :=
  "No pipeline specified in query, using default: \x27" ++ DEFAULT_PIPELINE_NAME ++ "\x27"

/-- Line 181. -/
def fetchingLine : String := "Fetching all available pipelines..."

/-- Line 184. -/
def fetchFailedLine : String := "Failed to fetch pipelines."

/-- Line 195. -/
def pipelineNotFoundLine (name : String) : String :=
  "Error: Could not find a pipeline with the name \x27" ++ name ++ "\x27."

/-- Line 198: the Python repr of the list of every fetched pipeline's name. -/
def availablePipelinesLine (ps : List Pipeline) : String :=
  "Available pipelines are: " ++ pyReprStrList (ps.map (fun p => p.name))

/-- Line 201. -/
def foundPipelineLine (name id : String) : String :=
  "Found Pipeline ID for \x27" ++ name ++ "\x27: " ++ id

/-- Line 217: prints the wrapped `opp_names` list. -/
def filteringLine (names : List JAtom) : String :=
  "Filtering for opportunities matching: " ++ pyReprJVal (JVal.arr names) ++ "..."

/-- Line 228. -/
def noOppMatchLine : String := "Could not find any opportunity matching your criteria."

/-- Line 231. -/
def noSpecificOppLine : String :=
  "No specific opportunity requested, showing tasks for all opportunities in the pipeline."

/-- Line 234 (the literal contains a leading newline). -/
def tasksHeaderLine : String := "\n--- Tasks from Opportunities ---"

/-- Line 257; the argument is Python `str(task_limit)`. -/
def showingLine (tl : String) : String :=
  "(Showing up to " ++ tl ++ " task(s) as requested)"

/-- Line 252. -/
def oppLine (o : Opportunity) : String :=
  "\nOpportunity: " ++ o.name.getD "N/A" ++ " (Pipeline: " ++ o.pipelineName.getD "N/A" ++ ")"

/-- Lines 262-263. -/
def renderTask (t : GhlTask) : List String :=
  [ "  - [ ] Task: " ++ t.title.getD "No Title",
    "    > Due: " ++ t.dueDate.getD "N/A" ]

/-- Line 267. -/
def noTasksFoundLine : String := "No incomplete tasks found for the given criteria."

/-! ### process_query (main.py lines 157-270), decomposed stage by stage -/

/-- The observable outcome of one successful `process_query` run: the report lines,
and which outbound calls were made before returning. -/
structure QOutput where
  lines : List String
  geminiCalled : Bool
  pipelinesFetched : Bool
  searchCalled : Bool
deriving Repr, DecidableEq

/-- Truthiness of `pipeline_id` at line 194 (`dict.get` returns `None` for a missing
key; an empty-string id would also be falsy). -/
def optStrTruthy : Option String → Bool
  | none => false
  | some s => s != ""

/-- `not t.get("completed")` (line 245): incomplete means `completed` is false or
absent. -/
def isIncomplete (t : GhlTask) : Bool := !(t.completed.getD false)

/-- Lines 171-178: the pipeline name to resolve — the interpretation's
`pipeline_name` when truthy, else the default constant (with its notice line). -/
def usedPipelineName (entries : List (String × JVal)) : JVal × List String :=
  match dictGet entries "pipeline_name" with
  | some v =>
    if jvalTruthy v then (v, [])
    else (JVal.atom (JAtom.jstr DEFAULT_PIPELINE_NAME), [defaultPipelineLine])
  | none => (JVal.atom (JAtom.jstr DEFAULT_PIPELINE_NAME), [defaultPipelineLine])

/-- Line 189: the comprehension `{p["name"].lower(): p["id"] for p in all_pipelines}`
as an assoc list (later entries shadow earlier ones, as in the Python dict). -/
def pipeline_name_to_id (ps : List Pipeline) : List (String × String) :=
  ps.map (fun p => (pyLowerS p.name, p.id))

/-- Line 191: `pipeline_name_to_id.get(pipeline_name.lower())` with last-binding-wins
dict semantics. -/
def resolvePipelineId (ps : List Pipeline) (name : String) : Option String :=
  ((pipeline_name_to_id ps).filter (fun e => e.1 == pyLowerS name)).reverse.head?.map
    (fun e => e.2)

/-- Lines 209-216: lowercase every requested opportunity name; a non-string element
makes `name.lower()` raise `AttributeError`. -/
def lowerAtoms : List JAtom → Except PyExc (List String)
  | [] => Except.ok []
  | JAtom.jstr s :: rest =>
    match lowerAtoms rest with
    | Except.ok l => Except.ok (pyLowerS s :: l)
    | Except.error e => Except.error e
  | _ :: _ => Except.error PyExc.attributeError

/-- Line 223's predicate: the opportunity's lowercased name contains at least one of
the lowercased requested names as a substring. -/
def oppMatches (lowercase_opp_names : List String) (o : Opportunity) : Bool :=
  lowercase_opp_names.any (fun n => pyInStr n (pyLowerS (o.name.getD "")))

/-- Lines 207-231, the opportunity-name filter stage.  Result: the lines it appends,
and `some` surviving opportunities to continue with, or `none` when the no-match
branch returned early. -/
def filterStage (entries : List (String × JVal)) (opportunities : List Opportunity) :
    Except PyExc (List String × Option (List Opportunity)) :=
  match dictGet entries "opportunity_name" with
  | some v =>
    if jvalTruthy v then
      let opp_names : List JAtom := match v with | JVal.arr l => l | JVal.atom a => [a]
      match lowerAtoms opp_names with
      | Except.error e => Except.error e
      | Except.ok lowercase_opp_names =>
        let filtered_opps := opportunities.filter (oppMatches lowercase_opp_names)
        if filtered_opps.isEmpty then
          Except.ok ([filteringLine opp_names, noOppMatchLine], none)
        else
          Except.ok ([filteringLine opp_names], some filtered_opps)
    else Except.ok ([noSpecificOppLine], some opportunities)
  | none => Except.ok ([noSpecificOppLine], some opportunities)

/-- Lines 240-263 for a single opportunity: the lines its iteration appends.  An
opportunity with no (truthy) task list or no incomplete task contributes nothing;
slicing with a truthy non-integer `task_limit` raises `TypeError` (booleans slice
as ints in Python). -/
def renderOpp (task_limit : Option JVal) (opp : Opportunity) :
    Except PyExc (List String) :=
  match opp.tasks with
  | none => Except.ok []
  | some ts =>
    if ts.isEmpty then Except.ok []
    else
      let incomplete_tasks := ts.filter isIncomplete
      if incomplete_tasks.isEmpty then Except.ok []
      else
        match task_limit with
        | none => Except.ok (oppLine opp :: (incomplete_tasks.map renderTask).flatten)
        | some tl =>
          if jvalTruthy tl then
            match tl with
            | JVal.atom (JAtom.jnum n) =>
              Except.ok (oppLine opp :: showingLine (toString n) ::
                ((pyTake incomplete_tasks n).map renderTask).flatten)
            | JVal.atom JAtom.jtrue =>
              Except.ok (oppLine opp :: showingLine "True" ::
                ((incomplete_tasks.take 1).map renderTask).flatten)
            | _ => Except.error PyExc.typeError
          else Except.ok (oppLine opp :: (incomplete_tasks.map renderTask).flatten)

/-- The loop of lines 240-263 over all opportunities: accumulated lines and the
`task_found` flag. -/
def renderOpps (task_limit : Option JVal) :
    List Opportunity → Except PyExc (List String × Bool)
  | [] => Except.ok ([], false)
  | o :: rest =>
    match renderOpp task_limit o with
    | Except.error e => Except.error e
    | Except.ok ls =>
      match renderOpps task_limit rest with
      | Except.error e => Except.error e
      | Except.ok (ls2, f) => Except.ok (ls ++ ls2, !ls.isEmpty || f)

/-- Lines 233-267: the task display stage. -/
def tasksStage (entries : List (String × JVal)) (acc : List String)
    (opportunities : List Opportunity) : Except PyExc QOutput :=
  let acc2 := acc ++ [tasksHeaderLine]
  let task_limit := dictGet entries "task_limit"
  match renderOpps task_limit opportunities with
  | Except.error e => Except.error e
  | Except.ok (tlines, task_found) =>
    if task_found then Except.ok ⟨acc2 ++ tlines, true, true, true⟩
    else Except.ok ⟨acc2 ++ tlines ++ [noTasksFoundLine], true, true, true⟩

/-- Lines 207-267: everything after the opportunity search returned. -/
def postFetch (entries : List (String × JVal)) (acc : List String)
    (opportunities : List Opportunity) : Except PyExc QOutput :=
  match filterStage entries opportunities with
  | Except.error e => Except.error e
  | Except.ok (ls, none) => Except.ok ⟨acc ++ ls, true, true, true⟩
  | Except.ok (ls, some opps) => tasksStage entries (acc ++ ls) opps

/-- Lines 187-267: everything after the pipeline list was fetched successfully.
`pname` is the value to resolve; `pipeline_name.lower()` on a non-string raises
`AttributeError` (line 191). -/
def afterPipelines (env : Env) (entries : List (String × JVal)) (pname : JVal)
    (acc : List String) (all_pipelines : List Pipeline) : Except PyExc QOutput :=
  match pname with
  | JVal.atom (JAtom.jstr s) =>
    let pid := resolvePipelineId all_pipelines s
    if optStrTruthy pid then
      let pipeline_id := pid.getD ""
      let status := (dictGet entries "status").getD (JVal.atom (JAtom.jstr "open"))
      let opportunities := get_ghl_opportunities pipeline_id status env.opportunitiesResp
      postFetch entries (acc ++ [foundPipelineLine s pipeline_id]) opportunities
    else
      Except.ok ⟨acc ++ [pipelineNotFoundLine s, availablePipelinesLine all_pipelines],
        true, true, false⟩
  | _ => Except.error PyExc.attributeError

/-- Lines 169-267: everything after the interpretation came back non-`None`.
`interp.get(...)` on a decoded non-dict raises `AttributeError`. -/
def afterInterp (env : Env) (interp : Json) : Except PyExc QOutput :=
  match interp with
  | Json.obj entries =>
    let p := usedPipelineName entries
    let acc := [interpLine interp] ++ p.2 ++ [fetchingLine]
    match get_all_pipelines env.pipelinesResp with
    | none => Except.ok ⟨acc ++ [fetchFailedLine], true, true, false⟩
    | some all_pipelines => afterPipelines env entries p.1 acc all_pipelines
  | Json.val _ => Except.error PyExc.attributeError

/-- `process_query` (main.py lines 157-270).  Returns the report (and call flags) on
the normal path, or the Python exception that escapes the function. -/
def process_query (env : Env) (user_query : String) : Except PyExc QOutput :=
  if user_query == "" then Except.ok ⟨[noQueryLine], false, false, false⟩
  else
    match get_interpretation_from_gemini env.gemini with
    | Except.error e => Except.error e
    | Except.ok none => Except.error PyExc.attributeError
    | Except.ok (some interp) => afterInterp env interp

/-- The report string returned to the caller: `"\n".join(output_lines)`. -/
def reportOf (o : QOutput) : String := String.intercalate "\n" o.lines

/-! ### Fence-marker constants and the spec-side stripping function -/

/-- The 3-character fence marker as a character list. -/
def tbq : List Char := [bq, bq, bq]

/-- The 7-character opening fence marker with language tag, as a character list. -/
def pJ : List Char := [bq, bq, bq, 'j', 's', 'o', 'n']

/-- The characters of an opening fence line: marker, "json" tag, newline. -/
def fencePreL : List Char := [bq, bq, bq, 'j', 's', 'o', 'n', '\n']

/-- The characters of a closing fence: newline then the marker. -/
def fenceSufL : List Char := ['\n', bq, bq, bq]

/-- Modelled from the spec (for the refinement comparison in C8): strip ONLY the
surrounding code-fence markers — the whitespace-trimmed text's leading triple
backtick with an optional "json" tag immediately after it, and its trailing triple
backtick — leaving interior occurrences untouched, then trim again. -/
def stripSurroundingFencesL (l : List Char) : List Char :=
  let t := pyStripL l
  if tbq.isPrefixOf t then
    let t1 := t.drop 3
    let t2 := if "json".data.isPrefixOf t1 then t1.drop 4 else t1
    let t3 := if tbq.isPrefixOf t2.reverse then (t2.reverse.drop 3).reverse else t2
    pyStripL t3
  else t

/-- String-level wrapper of the spec-side stripping function. -/
def stripSurroundingFences (s : String) : String :=
  String.mk (stripSurroundingFencesL s.data)

/-! ### Claim theorems -/

/-- C10: for the empty (falsy) user query, `process_query` returns exactly the single
line "No query provided." and makes no model-interpretation call and no CRM call. -/
theorem c10_empty_query (env : Env) :
    process_query env "" =
      Except.ok ⟨["No query provided."], false, false, false⟩ := rfl

/-- C7: `get_ghl_opportunities` returns the empty sequence on any fetch failure, and
that value coincides with the one returned for a successful search with no matching
opportunities, so the two situations are not distinguished by its return value. -/
theorem c7_search_failure_empty (pipeline_id : String) (status : JVal) :
    get_ghl_opportunities pipeline_id status none = [] ∧
    get_ghl_opportunities pipeline_id status none =
      get_ghl_opportunities pipeline_id status (some ⟨some []⟩) :=
  ⟨rfl, rfl⟩

/-- C6: `get_all_pipelines` returns the distinguished failure value `None` on a
request failure, which differs from every successful list result (in particular the
empty list); and on that failure the caller emits the terminal failure report and
skips the resolution and search stages (`searchCalled = false`). -/
theorem c6_pipelines_failure_distinguished :
    (get_all_pipelines none = none) ∧
    (∀ l : List Pipeline, decide (get_all_pipelines none = some l) = false) ∧
    (∀ (g : GeminiEnv) (o : Option OpportunitiesBody) (entries : List (String × JVal)),
      afterInterp ⟨g, none, o⟩ (Json.obj entries) =
        Except.ok ⟨[interpLine (Json.obj entries)] ++ (usedPipelineName entries).2 ++
          [fetchingLine, fetchFailedLine], true, true, false⟩) := by
  refine ⟨rfl, fun l => rfl, fun g o entries => ?_⟩
  simp [afterInterp, get_all_pipelines]

/-- C1 is a code bug: on the query-processing path, an interpretation failure does
not degrade to default filters.  If the model's response is not valid JSON, the
`except` branch executes `return {\x7b\x7d}` (a set containing a dict), raising
`TypeError`; if the model is unavailable, `get_interpretation_from_gemini` returns
`None` and `process_query` immediately raises `AttributeError` on `interp.get`.
Either way a raw exception escapes instead of a text report. -/
theorem c1_interpretation_failure_raises :
    process_query ⟨⟨true, some "this is not json"⟩, some ⟨some []⟩, some ⟨some []⟩⟩
        "show me my tasks" = Except.error PyExc.typeError ∧
    process_query ⟨⟨false, some "\x7b\x7d"⟩, some ⟨some []⟩, some ⟨some []⟩⟩
        "show me my tasks" = Except.error PyExc.attributeError :=
  ⟨by decide, by decide⟩

/-- C5: an opportunity whose incomplete-task sequence is empty contributes no lines
to the report (no section, no placeholder), and inserting it anywhere in the
opportunity list leaves the task-display stage's result unchanged, for every task
limit and every set of filters. -/
theorem c5_no_incomplete_never_rendered (task_limit : Option JVal) (o : Opportunity)
    (h : (o.tasks.getD []).filter isIncomplete = []) :
    renderOpp task_limit o = Except.ok [] ∧
    (∀ l1 l2 : List Opportunity,
      renderOpps task_limit (l1 ++ o :: l2) = renderOpps task_limit (l1 ++ l2)) := by
  have h1 : renderOpp task_limit o = Except.ok [] := by
    cases hts : o.tasks with
    | none => simp [renderOpp, hts]
    | some ts =>
      rw [hts] at h
      simp only [Option.getD_some] at h
      by_cases he : ts = []
      · simp [renderOpp, hts, he]
      · simp [renderOpp, hts, he, h]
  refine ⟨h1, fun l1 l2 => ?_⟩
  induction l1 with
  | nil =>
    simp only [List.nil_append]
    rw [renderOpps, h1]
    cases hr : renderOpps task_limit l2 with
    | error e => rfl
    | ok p => simp
  | cons a t ih =>
    rw [List.cons_append, List.cons_append, renderOpps, renderOpps, ih]

/-- C4: for every opportunity and every integer task limit L ≥ 1, the tasks rendered
for that opportunity are exactly the first at-most-L elements of its task sequence
whose `completed` field is false or absent, kept in original feed order; with no
limit, all incomplete tasks are rendered. -/
theorem c4_task_limit_take (o : Opportunity) (n : Int) (h : 1 ≤ n) :
    (renderOpp (some (JVal.atom (JAtom.jnum n))) o =
      if (o.tasks.getD []).isEmpty || ((o.tasks.getD []).filter isIncomplete).isEmpty
      then Except.ok []
      else Except.ok (oppLine o :: showingLine (toString n) ::
        ((((o.tasks.getD []).filter isIncomplete).take n.toNat).map renderTask).flatten)) ∧
    (renderOpp none o =
      if (o.tasks.getD []).isEmpty || ((o.tasks.getD []).filter isIncomplete).isEmpty
      then Except.ok []
      else Except.ok (oppLine o ::
        (((o.tasks.getD []).filter isIncomplete).map renderTask).flatten)) := by
  have hn0 : ¬ (n = 0) := by omega
  have hn1 : (0 ≤ n) := by omega
  cases hts : o.tasks with
  | none => constructor <;> simp [renderOpp, hts]
  | some ts =>
    by_cases h1 : ts = []
    · constructor <;> simp [renderOpp, hts, h1]
    · by_cases h2 : ts.filter isIncomplete = []
      · constructor <;> simp [renderOpp, hts, h1, h2]
      · constructor <;>
          simp [renderOpp, hts, h1, h2, jvalTruthy, atomTruthy, hn0, pyTake, hn1]

/-- Witness for C5 at a concrete opportunity whose two tasks are both completed. -/
theorem c5_no_incomplete_never_rendered_witness :
    renderOpp (some (JVal.atom (JAtom.jnum 2)))
        ⟨some "Done Deal", some "P", some [⟨some "t1", none, some true⟩,
          ⟨some "t2", some "2024-01-01", some true⟩]⟩ = Except.ok [] ∧
    renderOpps (some (JVal.atom (JAtom.jnum 2)))
        ([] ++ ⟨some "Done Deal", some "P", some [⟨some "t1", none, some true⟩,
          ⟨some "t2", some "2024-01-01", some true⟩]⟩ :: []) =
      renderOpps (some (JVal.atom (JAtom.jnum 2))) ([] ++ []) := by
  have h := c5_no_incomplete_never_rendered (some (JVal.atom (JAtom.jnum 2)))
    ⟨some "Done Deal", some "P", some [⟨some "t1", none, some true⟩,
      ⟨some "t2", some "2024-01-01", some true⟩]⟩ (by decide)
  exact ⟨h.1, h.2 [] []⟩

/-- Witness for C4 at a concrete opportunity with three incomplete tasks and L = 2. -/
theorem c4_task_limit_take_witness :
    renderOpp (some (JVal.atom (JAtom.jnum 2)))
        ⟨some "Proj", none, some [⟨some "a", none, none⟩, ⟨some "b", none, some false⟩,
          ⟨some "c", none, none⟩]⟩ =
      Except.ok ["\nOpportunity: Proj (Pipeline: N/A)",
        "(Showing up to 2 task(s) as requested)",
        "  - [ ] Task: a", "    > Due: N/A",
        "  - [ ] Task: b", "    > Due: N/A"] := by
  have h := (c4_task_limit_take
    ⟨some "Proj", none, some [⟨some "a", none, none⟩, ⟨some "b", none, some false⟩,
      ⟨some "c", none, none⟩]⟩ 2 (by decide)).1
  exact h.trans (by decide)

/-- A list whose `head?` is `some a` contains `a`. -/
theorem head?_mem {α : Type} {l : List α} {a : α} (h : l.head? = some a) : a ∈ l := by
  cases l with
  | nil => simp at h
  | cons x t =>
    simp only [List.head?_cons, Option.some.injEq] at h
    rw [← h]
    exact List.mem_cons_self x t

/-- A filtered list is nonempty exactly when some element satisfies the predicate. -/
theorem filter_ne_nil_iff {α : Type} (p : α → Bool) (l : List α) :
    (l.filter p ≠ []) ↔ ∃ a ∈ l, p a = true := by
  rw [ne_eq, List.filter_eq_nil_iff]
  push_neg
  simp

/-- The pipeline lookup of line 191 succeeds exactly when some fetched pipeline's
lowercased name equals the lowercased requested name. -/
theorem resolvePipelineId_isSome_iff (ps : List Pipeline) (name : String) :
    (resolvePipelineId ps name).isSome = true ↔
      ∃ p ∈ ps, pyLowerS p.name = pyLowerS name := by
  unfold resolvePipelineId pipeline_name_to_id
  have hm : ∀ (o : Option (String × String)) (f : String × String → String),
      (o.map f).isSome = o.isSome := by
    intro o f
    cases o <;> rfl
  rw [hm]
  rw [List.head?_isSome]
  rw [ne_eq, List.reverse_eq_nil_iff, ← ne_eq, filter_ne_nil_iff]
  constructor
  · rintro ⟨e, he, hpe⟩
    obtain ⟨p, hp, rfl⟩ := List.mem_map.mp he
    exact ⟨p, hp, by simpa using hpe⟩
  · rintro ⟨p, hp, heq⟩
    exact ⟨(pyLowerS p.name, p.id), List.mem_map_of_mem _ hp, by simpa using heq⟩

/-- When the pipeline lookup returns an id, that id belongs to a fetched pipeline
whose lowercased name equals the lowercased requested name. -/
theorem resolvePipelineId_mem (ps : List Pipeline) (name : String) (id : String)
    (h : resolvePipelineId ps name = some id) :
    ∃ p ∈ ps, pyLowerS p.name = pyLowerS name ∧ p.id = id := by
  unfold resolvePipelineId pipeline_name_to_id at h
  cases hh : ((ps.map fun p => (pyLowerS p.name, p.id)).filter
      fun e => e.1 == pyLowerS name).reverse.head? with
  | none => rw [hh] at h; simp at h
  | some e =>
    rw [hh] at h
    simp at h
    have he := List.mem_reverse.mp (head?_mem hh)
    have hf := List.mem_filter.mp he
    obtain ⟨p, hp, rfl⟩ := List.mem_map.mp hf.1
    refine ⟨p, hp, by simpa using hf.2, h⟩

/-- C2 counterexample: the claim says the name used is `filters.pipeline_name`
whenever it is present, but for a present empty-string `pipeline_name` (a falsy
value under `if interp.get("pipeline_name"):`) the code uses the configured default
constant instead. -/
theorem c2_counterexample :
    dictGet [("pipeline_name", JVal.atom (JAtom.jstr ""))] "pipeline_name" =
      some (JVal.atom (JAtom.jstr "")) ∧
    (usedPipelineName [("pipeline_name", JVal.atom (JAtom.jstr ""))]).1 =
      JVal.atom (JAtom.jstr DEFAULT_PIPELINE_NAME) ∧
    decide (DEFAULT_PIPELINE_NAME = "") = false :=
  ⟨by decide, by decide, by decide⟩

/-- C2 (amended): pipeline resolution is case-insensitive and exact (not substring):
when every fetched pipeline id is a nonempty string, the lookup is truthy exactly
when some fetched pipeline's lowercased name equals the lowercased requested name;
the name used is `filters.pipeline_name` when present and non-empty, else the
configured default constant; and whenever no pipeline matches, the outcome is the
NotFound report carrying the requested name and the full list of available pipeline
names, with the search stage skipped. -/
theorem c2_pipeline_resolution (ps : List Pipeline) (name : String) :
    ((∀ p ∈ ps, p.id ≠ "") →
      (optStrTruthy (resolvePipelineId ps name) = true ↔
        ∃ p ∈ ps, pyLowerS p.name = pyLowerS name)) ∧
    (∀ (entries : List (String × JVal)) (s : String), s ≠ "" →
      dictGet entries "pipeline_name" = some (JVal.atom (JAtom.jstr s)) →
      (usedPipelineName entries).1 = JVal.atom (JAtom.jstr s)) ∧
    (∀ entries : List (String × JVal),
      (dictGet entries "pipeline_name" = none ∨
        dictGet entries "pipeline_name" = some (JVal.atom (JAtom.jstr ""))) →
      (usedPipelineName entries).1 = JVal.atom (JAtom.jstr DEFAULT_PIPELINE_NAME)) ∧
    ((¬ ∃ p ∈ ps, pyLowerS p.name = pyLowerS name) →
      ∀ (env : Env) (entries : List (String × JVal)) (acc : List String),
        afterPipelines env entries (JVal.atom (JAtom.jstr name)) acc ps =
          Except.ok ⟨acc ++ [pipelineNotFoundLine name, availablePipelinesLine ps],
            true, true, false⟩) := by
  refine ⟨fun hids => ?_, fun entries s hs hd => ?_, fun entries hd => ?_, fun hno env entries acc => ?_⟩
  · constructor
    · intro ht
      cases hr : resolvePipelineId ps name with
      | none => rw [hr] at ht; simp [optStrTruthy] at ht
      | some id =>
        obtain ⟨p, hp, heq, _⟩ := resolvePipelineId_mem ps name id hr
        exact ⟨p, hp, heq⟩
    · intro hex
      have hsome : (resolvePipelineId ps name).isSome = true :=
        (resolvePipelineId_isSome_iff ps name).mpr hex
      cases hr : resolvePipelineId ps name with
      | none => rw [hr] at hsome; simp at hsome
      | some id =>
        obtain ⟨p, hp, _, hid⟩ := resolvePipelineId_mem ps name id hr
        have : id ≠ "" := hid ▸ hids p hp
        simp [optStrTruthy, this]
  · simp [usedPipelineName, hd, jvalTruthy, atomTruthy, hs]
  · rcases hd with hd | hd <;> simp [usedPipelineName, hd, jvalTruthy, atomTruthy]
  · have hr : resolvePipelineId ps name = none := by
      cases hr : resolvePipelineId ps name with
      | none => rfl
      | some id =>
        obtain ⟨p, hp, heq, _⟩ := resolvePipelineId_mem ps name id hr
        exact absurd ⟨p, hp, heq⟩ hno
    simp [afterPipelines, hr, optStrTruthy]

/-- Witness for C2 at a one-pipeline list: a differently-cased requested name
resolves (case-insensitive exact match), a present non-empty `pipeline_name` is
used, a present empty one falls back to the default, and an unmatched name yields
the NotFound report. -/
theorem c2_pipeline_resolution_witness :
    optStrTruthy (resolvePipelineId [⟨"Sales Pipeline", "p1"⟩] "SALES pipeline") = true ∧
    (usedPipelineName [("pipeline_name", JVal.atom (JAtom.jstr "Internal Pipeline"))]).1 =
      JVal.atom (JAtom.jstr "Internal Pipeline") ∧
    afterPipelines ⟨⟨true, none⟩, none, none⟩ [] (JVal.atom (JAtom.jstr "Ghost")) []
        [⟨"Sales Pipeline", "p1"⟩] =
      Except.ok ⟨[pipelineNotFoundLine "Ghost",
        availablePipelinesLine [⟨"Sales Pipeline", "p1"⟩]], true, true, false⟩ := by
  have h := c2_pipeline_resolution [⟨"Sales Pipeline", "p1"⟩] "SALES pipeline"
  refine ⟨(h.1 (by decide)).mpr ⟨⟨"Sales Pipeline", "p1"⟩, by simp, by decide⟩, ?_, ?_⟩
  · exact (c2_pipeline_resolution [] "x").2.1 _ "Internal Pipeline" (by decide) (by decide)
  · have h2 := c2_pipeline_resolution [⟨"Sales Pipeline", "p1"⟩] "Ghost"
    have := h2.2.2.2 (by
      rintro ⟨p, hp, heq⟩
      simp only [List.mem_singleton] at hp
      rw [hp] at heq
      exact absurd heq (by decide)) ⟨⟨true, none⟩, none, none⟩ [] []
    simpa using this

/-- Lowercasing a list of JSON strings succeeds and lowercases each element. -/
theorem lowerAtoms_map_jstr (names : List String) :
    lowerAtoms (names.map JAtom.jstr) = Except.ok (names.map pyLowerS) := by
  induction names with
  | nil => rfl
  | cons s t ih => simp [lowerAtoms, ih]

/-- C3 counterexample: the claim's kept-iff-OR-over-the-N-terms reading fails for a
present empty-list filter (N = 0): an OR over zero substring tests holds for no
opportunity, yet the code treats the falsy empty list like an absent filter and
keeps every opportunity. -/
theorem c3_counterexample :
    dictGet [("opportunity_name", JVal.arr [])] "opportunity_name" =
      some (JVal.arr []) ∧
    filterStage [("opportunity_name", JVal.arr [])] [⟨some "Alpha", none, none⟩] =
      Except.ok ([noSpecificOppLine], some [⟨some "Alpha", none, none⟩]) ∧
    ([] : List JAtom).all (fun _ => false) = true :=
  ⟨by decide, by decide, by decide⟩

/-- Shared characterisation of the opportunity-name filter stage (lines 207-231),
used by several claims below. -/
theorem filterStage_cases (entries : List (String × JVal))
    (opps : List Opportunity) :
    (dictGet entries "opportunity_name" = none →
      filterStage entries opps = Except.ok ([noSpecificOppLine], some opps)) ∧
    (∀ v : JVal, dictGet entries "opportunity_name" = some v → jvalTruthy v = false →
      filterStage entries opps = Except.ok ([noSpecificOppLine], some opps)) ∧
    (∀ names : List String, names ≠ [] →
      dictGet entries "opportunity_name" = some (JVal.arr (names.map JAtom.jstr)) →
      (∀ o : Opportunity,
        (o ∈ opps.filter (oppMatches (names.map pyLowerS))) ↔
          (o ∈ opps ∧ ∃ nm ∈ names,
            pyInStr (pyLowerS nm) (pyLowerS (o.name.getD "")) = true)) ∧
      (opps.filter (oppMatches (names.map pyLowerS)) = [] →
        filterStage entries opps =
          Except.ok ([filteringLine (names.map JAtom.jstr), noOppMatchLine], none)) ∧
      (opps.filter (oppMatches (names.map pyLowerS)) ≠ [] →
        filterStage entries opps =
          Except.ok ([filteringLine (names.map JAtom.jstr)],
            some (opps.filter (oppMatches (names.map pyLowerS)))))) ∧
    (∀ s : String, s ≠ "" →
      dictGet entries "opportunity_name" = some (JVal.atom (JAtom.jstr s)) →
      (opps.filter (oppMatches [pyLowerS s]) = [] →
        filterStage entries opps =
          Except.ok ([filteringLine [JAtom.jstr s], noOppMatchLine], none)) ∧
      (opps.filter (oppMatches [pyLowerS s]) ≠ [] →
        filterStage entries opps =
          Except.ok ([filteringLine [JAtom.jstr s]],
            some (opps.filter (oppMatches [pyLowerS s]))))) := by
  refine ⟨fun hd => ?_, fun v hd hf => ?_, fun names hne hd => ?_, fun s hs hd => ?_⟩
  · simp [filterStage, hd]
  · simp [filterStage, hd, hf]
  · have htr : jvalTruthy (JVal.arr (names.map JAtom.jstr)) = true := by
      simp [jvalTruthy, hne]
    refine ⟨fun o => ?_, fun hemp => ?_, fun hne2 => ?_⟩
    · rw [List.mem_filter]
      unfold oppMatches
      rw [List.any_eq_true]
      constructor
      · rintro ⟨ho, lo, hlo, hin⟩
        obtain ⟨nm, hnm, rfl⟩ := List.mem_map.mp hlo
        exact ⟨ho, nm, hnm, hin⟩
      · rintro ⟨ho, nm, hnm, hin⟩
        exact ⟨ho, pyLowerS nm, List.mem_map_of_mem _ hnm, hin⟩
    · simp [filterStage, hd, htr, lowerAtoms_map_jstr, hemp]
    · simp [filterStage, hd, htr, lowerAtoms_map_jstr, hne2]
  · have htr : jvalTruthy (JVal.atom (JAtom.jstr s)) = true := by
      simp [jvalTruthy, atomTruthy, hs]
    have hone : lowerAtoms [JAtom.jstr s] = Except.ok [pyLowerS s] := rfl
    refine ⟨fun hemp => ?_, fun hne2 => ?_⟩
    · simp [filterStage, hd, htr, hone, hemp]
    · simp [filterStage, hd, htr, hone, hne2]

/-- C3 (amended): when the `opportunity_name` filter is absent or falsy (empty
string or empty list), every opportunity passes unchanged; when it is a truthy list
of strings (and likewise a truthy single string, treated as the one-element list),
an opportunity is kept iff its lowercased name contains at least one of the
lowercased terms as a substring (an OR over the terms); and an empty result after
filtering yields the terminal no-match report lines, not an exception. -/
theorem c3_name_filter_semantics (entries : List (String × JVal))
    (opps : List Opportunity) :
    (dictGet entries "opportunity_name" = none →
      filterStage entries opps = Except.ok ([noSpecificOppLine], some opps)) ∧
    (∀ v : JVal, dictGet entries "opportunity_name" = some v → jvalTruthy v = false →
      filterStage entries opps = Except.ok ([noSpecificOppLine], some opps)) ∧
    (∀ names : List String, names ≠ [] →
      dictGet entries "opportunity_name" = some (JVal.arr (names.map JAtom.jstr)) →
      (∀ o : Opportunity,
        (o ∈ opps.filter (oppMatches (names.map pyLowerS))) ↔
          (o ∈ opps ∧ ∃ nm ∈ names,
            pyInStr (pyLowerS nm) (pyLowerS (o.name.getD "")) = true)) ∧
      (opps.filter (oppMatches (names.map pyLowerS)) = [] →
        filterStage entries opps =
          Except.ok ([filteringLine (names.map JAtom.jstr), noOppMatchLine], none)) ∧
      (opps.filter (oppMatches (names.map pyLowerS)) ≠ [] →
        filterStage entries opps =
          Except.ok ([filteringLine (names.map JAtom.jstr)],
            some (opps.filter (oppMatches (names.map pyLowerS)))))) ∧
    (∀ s : String, s ≠ "" →
      dictGet entries "opportunity_name" = some (JVal.atom (JAtom.jstr s)) →
      (opps.filter (oppMatches [pyLowerS s]) = [] →
        filterStage entries opps =
          Except.ok ([filteringLine [JAtom.jstr s], noOppMatchLine], none)) ∧
      (opps.filter (oppMatches [pyLowerS s]) ≠ [] →
        filterStage entries opps =
          Except.ok ([filteringLine [JAtom.jstr s]],
            some (opps.filter (oppMatches [pyLowerS s]))))) :=
  filterStage_cases entries opps

/-- Witness for C3 at concrete data: a two-term filter keeps exactly the
case-insensitive substring matches, and an unmatched single-string filter takes
the terminal no-match branch. -/
theorem c3_name_filter_semantics_witness :
    filterStage [("opportunity_name", JVal.arr [JAtom.jstr "Tech", JAtom.jstr "VOICE"])]
        [⟨some "Project TechCEO", none, none⟩, ⟨some "Other", none, none⟩] =
      Except.ok ([filteringLine [JAtom.jstr "Tech", JAtom.jstr "VOICE"]],
        some [⟨some "Project TechCEO", none, none⟩]) ∧
    filterStage [("opportunity_name", JVal.atom (JAtom.jstr "zzz"))]
        [⟨some "Project TechCEO", none, none⟩] =
      Except.ok ([filteringLine [JAtom.jstr "zzz"], noOppMatchLine], none) := by
  constructor
  · have h := ((c3_name_filter_semantics
      [("opportunity_name", JVal.arr [JAtom.jstr "Tech", JAtom.jstr "VOICE"])]
      [⟨some "Project TechCEO", none, none⟩, ⟨some "Other", none, none⟩]).2.2.1
      ["Tech", "VOICE"] (by decide) (by decide)).2.2 (by decide)
    exact h.trans (by decide)
  · exact ((c3_name_filter_semantics
      [("opportunity_name", JVal.atom (JAtom.jstr "zzz"))]
      [⟨some "Project TechCEO", none, none⟩]).2.2.2 "zzz" (by decide) (by decide)).1
      (by decide)

/-- C9 counterexample: a run whose opportunity search returns zero opportunities but
whose interpretation carries an opportunity-name filter ends with the "no match"
line, not with the "no incomplete tasks found" terminal line. -/
theorem c9_counterexample :
    (process_query
        ⟨⟨true, some "\x7b\"opportunity_name\": \"zzz\"\x7d"⟩,
          some ⟨some [⟨"Client Software Development Pipeline", "pid1"⟩]⟩,
          some ⟨some []⟩⟩
        "tasks for zzz").toOption.map (fun out => out.lines.getLast?) =
      some (some noOppMatchLine) ∧
    decide (noOppMatchLine = noTasksFoundLine) = false ∧
    get_ghl_opportunities "pid1" (JVal.atom (JAtom.jstr "open")) (some ⟨some []⟩) = [] :=
  ⟨by decide, by decide, rfl⟩

/-- C9 (amended): when the opportunity search returns zero opportunities, the report
ends with the "no incomplete tasks found" terminal line if no truthy
opportunity-name filter is present; with a truthy (string or string-list) filter it
instead ends with the terminal "no match" line. -/
theorem c9_zero_opportunities_last_line (entries : List (String × JVal))
    (acc : List String) :
    (dictGet entries "opportunity_name" = none →
      ∃ out, postFetch entries acc [] = Except.ok out ∧
        out.lines.getLast? = some noTasksFoundLine) ∧
    (∀ v : JVal, dictGet entries "opportunity_name" = some v → jvalTruthy v = false →
      ∃ out, postFetch entries acc [] = Except.ok out ∧
        out.lines.getLast? = some noTasksFoundLine) ∧
    (∀ s : String, s ≠ "" →
      dictGet entries "opportunity_name" = some (JVal.atom (JAtom.jstr s)) →
      ∃ out, postFetch entries acc [] = Except.ok out ∧
        out.lines.getLast? = some noOppMatchLine) ∧
    (∀ names : List String, names ≠ [] →
      dictGet entries "opportunity_name" = some (JVal.arr (names.map JAtom.jstr)) →
      ∃ out, postFetch entries acc [] = Except.ok out ∧
        out.lines.getLast? = some noOppMatchLine) := by
  have hfs := filterStage_cases entries ([] : List Opportunity)
  have hrender : ∀ tl, renderOpps tl ([] : List Opportunity) = Except.ok ([], false) :=
    fun tl => rfl
  have hlast2 : ∀ (l : List String) (a b : String),
      (l ++ [a, b]).getLast? = some b := by
    intro l a b
    rw [show l ++ [a, b] = (l ++ [a]) ++ [b] by simp]
    exact List.getLast?_concat _
  have hlast3 : ∀ (l : List String) (a b c : String),
      (l ++ [a, b, c]).getLast? = some c := by
    intro l a b c
    rw [show l ++ [a, b, c] = (l ++ [a, b]) ++ [c] by simp]
    exact List.getLast?_concat _
  refine ⟨fun hd => ?_, fun v hd hf => ?_, fun s hs hd => ?_, fun names hne hd => ?_⟩
  · have heq : postFetch entries acc [] =
        Except.ok ⟨acc ++ [noSpecificOppLine, tasksHeaderLine, noTasksFoundLine],
          true, true, true⟩ := by
      simp [postFetch, hfs.1 hd, tasksStage, renderOpps]
    exact ⟨_, heq, hlast3 acc _ _ _⟩
  · have heq : postFetch entries acc [] =
        Except.ok ⟨acc ++ [noSpecificOppLine, tasksHeaderLine, noTasksFoundLine],
          true, true, true⟩ := by
      simp [postFetch, hfs.2.1 v hd hf, tasksStage, renderOpps]
    exact ⟨_, heq, hlast3 acc _ _ _⟩
  · have heq : postFetch entries acc [] =
        Except.ok ⟨acc ++ [filteringLine [JAtom.jstr s], noOppMatchLine],
          true, true, true⟩ := by
      simp [postFetch, (hfs.2.2.2 s hs hd).1 (by simp)]
    exact ⟨_, heq, hlast2 acc _ _⟩
  · have heq : postFetch entries acc [] =
        Except.ok ⟨acc ++ [filteringLine (names.map JAtom.jstr), noOppMatchLine],
          true, true, true⟩ := by
      simp [postFetch, (hfs.2.2.1 names hne hd).2.1 (by simp)]
    exact ⟨_, heq, hlast2 acc _ _⟩

/-- Witness for C9: with no filter the report ends with the no-incomplete-tasks
line; with a concrete truthy filter it ends with the no-match line. -/
theorem c9_zero_opportunities_last_line_witness :
    (∃ out, postFetch [] ["acc"] [] = Except.ok out ∧
      out.lines.getLast? = some noTasksFoundLine) ∧
    (∃ out, postFetch [("opportunity_name", JVal.atom (JAtom.jstr "zzz"))] ["acc"] [] =
        Except.ok out ∧
      out.lines.getLast? = some noOppMatchLine) :=
  ⟨(c9_zero_opportunities_last_line [] ["acc"]).1 (by decide),
   (c9_zero_opportunities_last_line [("opportunity_name", JVal.atom (JAtom.jstr "zzz"))]
      ["acc"]).2.2.1 "zzz" (by decide) (by decide)⟩

/-- If the body contains no triple backtick, appending the closing fence introduces
no occurrence of the 7-character opening marker. -/
theorem containsL_pJ_boundary : ∀ l : List Char, containsL tbq l = false →
    containsL pJ (l ++ fenceSufL) = false := by
  intro l
  induction l with
  | nil => intro _; decide
  | cons c rest ih =>
    intro h
    rw [containsL, Bool.or_eq_false_iff] at h
    obtain ⟨h1, h2⟩ := h
    rw [List.cons_append, containsL, Bool.or_eq_false_iff]
    refine ⟨?_, ih h2⟩
    rcases rest with _ | ⟨d, (_ | ⟨e, (_ | ⟨f, rest3⟩)⟩)⟩
    · have hf : ((bq == '\n') : Bool) = false := by decide
      simp [pJ, fenceSufL, List.isPrefixOf, hf]
    · have hf : ((bq == '\n') : Bool) = false := by decide
      simp [pJ, fenceSufL, List.isPrefixOf, hf]
    · have hf : (('j' == '\n') : Bool) = false := by decide
      simp [pJ, fenceSufL, List.isPrefixOf, hf]
    · simp only [pJ, tbq, List.isPrefixOf, Bool.and_eq_false_iff,
        Bool.and_eq_true, beq_iff_eq] at h1 ⊢
      tauto

/-- Deleting the 7-character opening marker from a text containing no occurrence of
it is the identity. -/
theorem removeJsonTicksL_of_not_contains : ∀ l : List Char,
    containsL pJ l = false → removeJsonTicksL l = l := by
  intro l
  induction l with
  | nil => intro _; rfl
  | cons c rest ih =>
    intro h
    rw [containsL, Bool.or_eq_false_iff] at h
    obtain ⟨h1, h2⟩ := h
    rcases rest with _ | ⟨d2, (_ | ⟨d3, (_ | ⟨d4, (_ | ⟨d5, (_ | ⟨d6, (_ | ⟨d7, rest7⟩)⟩)⟩)⟩)⟩)⟩
    · rfl
    · rfl
    · rfl
    · rfl
    · rfl
    · rfl
    · by_cases hg : (c == bq && d2 == bq && d3 == bq && d4 == 'j' && d5 == 's' &&
          d6 == 'o' && d7 == 'n') = true
      · exfalso
        simp only [Bool.and_eq_true, beq_iff_eq] at hg
        obtain ⟨⟨⟨⟨⟨⟨e1, e2⟩, e3⟩, e4⟩, e5⟩, e6⟩, e7⟩ := hg
        subst e1; subst e2; subst e3; subst e4; subst e5; subst e6; subst e7
        simp [pJ, List.isPrefixOf] at h1
      · rw [removeJsonTicksL, if_neg hg, ih h2]

/-- Deleting the 3-character fence marker from a triple-backtick-free text followed
by the closing fence deletes exactly the closing marker (keeping its newline). -/
theorem removeTicksL_append_sfx : ∀ l : List Char, containsL tbq l = false →
    removeTicksL (l ++ fenceSufL) = l ++ ['\n'] := by
  have hf : (('\n' : Char) == bq) = false := by decide
  have hin : removeTicksL ('\n' :: bq :: bq :: bq :: []) = ['\n'] := by decide
  intro l
  induction l with
  | nil => intro _; decide
  | cons c rest ih =>
    intro h
    rw [containsL, Bool.or_eq_false_iff] at h
    obtain ⟨h1, h2⟩ := h
    rcases rest with _ | ⟨d, (_ | ⟨e, rest2⟩)⟩
    · simp only [fenceSufL, List.cons_append, List.nil_append]
      rw [removeTicksL, if_neg (by simp [hf]), hin]
    · simp only [fenceSufL, List.cons_append, List.nil_append]
      rw [removeTicksL, if_neg (by simp [hf]), removeTicksL, if_neg (by simp [hf]), hin]
    · by_cases hg : (c == bq && d == bq && e == bq) = true
      · exfalso
        simp only [Bool.and_eq_true, beq_iff_eq] at hg
        obtain ⟨⟨e1, e2⟩, e3⟩ := hg
        subst e1; subst e2; subst e3
        simp [tbq, List.isPrefixOf] at h1
      · rw [show ((c :: d :: e :: rest2) ++ fenceSufL) =
            c :: d :: e :: (rest2 ++ fenceSufL) from by simp]
        rw [removeTicksL, if_neg hg]
        rw [show (d :: e :: (rest2 ++ fenceSufL)) = (d :: e :: rest2) ++ fenceSufL from by
          simp]
        rw [ih h2]
        simp

/-- `pyStripL` is the identity on a list whose first and last characters are not
whitespace. -/
theorem pyStripL_eq_self (l : List Char)
    (h1 : ∀ c, l.head? = some c → pyWs c = false)
    (h2 : ∀ c, l.getLast? = some c → pyWs c = false) : pyStripL l = l := by
  cases l with
  | nil => rfl
  | cons a t =>
    have ha : pyWs a = false := h1 a rfl
    unfold pyStripL
    rw [List.dropWhile_cons_of_neg (by simp [ha])]
    cases hlast : (a :: t).getLast? with
    | none => simp at hlast
    | some z =>
      have hz : pyWs z = false := h2 z hlast
      have hrev : (a :: t).reverse.head? = some z := by
        rw [List.head?_reverse]
        exact hlast
      cases hr : (a :: t).reverse with
      | nil => simp at hr
      | cons r rs =>
        rw [hr] at hrev
        simp only [List.head?_cons, Option.some.injEq] at hrev
        have hstep : List.dropWhile pyWs (r :: rs) = r :: rs := by
          apply List.dropWhile_cons_of_neg
          simp [hrev, hz]
        rw [hstep, ← hr, List.reverse_reverse]

/-- A list fixed by `pyStripL` is fixed by the initial whitespace drop. -/
theorem dropWhile_eq_self_of_strip (l : List Char) (hs : pyStripL l = l) :
    l.dropWhile pyWs = l := by
  have len1 : (pyStripL l).length ≤ (l.dropWhile pyWs).length := by
    unfold pyStripL
    rw [List.length_reverse]
    calc ((l.dropWhile pyWs).reverse.dropWhile pyWs).length
        ≤ (l.dropWhile pyWs).reverse.length := (List.dropWhile_sublist pyWs).length_le
      _ = (l.dropWhile pyWs).length := List.length_reverse _
  have len2 : (l.dropWhile pyWs).length ≤ l.length := (List.dropWhile_sublist pyWs).length_le
  have heq : (pyStripL l).length = l.length := by rw [hs]
  exact (List.dropWhile_suffix pyWs).eq_of_length (by omega)

/-- A list fixed by `pyStripL` has its reverse fixed by the whitespace drop. -/
theorem dropWhile_reverse_eq_self_of_strip (l : List Char) (hs : pyStripL l = l) :
    l.reverse.dropWhile pyWs = l.reverse := by
  have h' := hs
  unfold pyStripL at h'
  rw [dropWhile_eq_self_of_strip l hs] at h'
  have := congrArg List.reverse h'
  rwa [List.reverse_reverse] at this

/-- The full fence-stripping pipeline of line 147 recovers a fenced body exactly,
provided the body contains no triple backtick and no surrounding whitespace. -/
theorem stripFencesL_fenced (body : List Char) (hb : containsL tbq body = false)
    (hs : pyStripL body = body) :
    stripFencesL (fencePreL ++ body ++ fenceSufL) = body := by
  have houter : pyStripL (fencePreL ++ body ++ fenceSufL) =
      fencePreL ++ body ++ fenceSufL := by
    apply pyStripL_eq_self
    · intro c hc
      rw [show fencePreL ++ body ++ fenceSufL =
        bq :: ([bq, bq, 'j', 's', 'o', 'n', '\n'] ++ body ++ fenceSufL) from by
          simp [fencePreL]] at hc
      simp only [List.head?_cons, Option.some.injEq] at hc
      rw [← hc]
      decide
    · intro c hc
      rw [show fencePreL ++ body ++ fenceSufL =
        (fencePreL ++ body ++ ['\n', bq, bq]) ++ [bq] from by simp [fenceSufL]] at hc
      rw [List.getLast?_concat] at hc
      simp only [Option.some.injEq] at hc
      rw [← hc]
      decide
  have hjson : removeJsonTicksL (fencePreL ++ body ++ fenceSufL) =
      '\n' :: (body ++ fenceSufL) := by
    rw [show fencePreL ++ body ++ fenceSufL =
      bq :: bq :: bq :: 'j' :: 's' :: 'o' :: 'n' :: ('\n' :: (body ++ fenceSufL)) from by
        simp [fencePreL]]
    rw [removeJsonTicksL, if_pos (by decide)]
    have hnb : containsL tbq ('\n' :: body) = false := by
      rw [containsL, Bool.or_eq_false_iff]
      refine ⟨?_, hb⟩
      cases body with
      | nil => decide
      | cons x xs =>
        have : ((bq == '\n') : Bool) = false := by decide
        simp [tbq, List.isPrefixOf, this]
    have := containsL_pJ_boundary ('\n' :: body) hnb
    rw [List.cons_append] at this
    exact removeJsonTicksL_of_not_contains _ this
  have hticks : removeTicksL ('\n' :: (body ++ fenceSufL)) = ('\n' :: body) ++ ['\n'] := by
    have hnb : containsL tbq ('\n' :: body) = false := by
      rw [containsL, Bool.or_eq_false_iff]
      refine ⟨?_, hb⟩
      cases body with
      | nil => decide
      | cons x xs =>
        have : ((bq == '\n') : Bool) = false := by decide
        simp [tbq, List.isPrefixOf, this]
    have := removeTicksL_append_sfx ('\n' :: body) hnb
    rwa [List.cons_append] at this
  have hfinal : pyStripL (('\n' :: body) ++ ['\n']) = body := by
    cases body with
    | nil => decide
    | cons h0 t0 =>
      have hdw := dropWhile_eq_self_of_strip _ hs
      have hdwr := dropWhile_reverse_eq_self_of_strip _ hs
      have hw0 : pyWs h0 = false := by
        by_contra hcon
        have hpos : pyWs h0 = true := by
          revert hcon
          cases pyWs h0 <;> simp
        rw [List.dropWhile_cons_of_pos hpos] at hdw
        have hle := (List.dropWhile_sublist (l := t0) pyWs).length_le
        have := congrArg List.length hdw
        simp at this
        omega
      unfold pyStripL
      rw [show (('\n' :: (h0 :: t0)) ++ ['\n']) = '\n' :: ((h0 :: t0) ++ ['\n']) from rfl]
      rw [List.dropWhile_cons_of_pos (by decide)]
      rw [show ((h0 :: t0) ++ ['\n']) = h0 :: (t0 ++ ['\n']) from rfl]
      rw [List.dropWhile_cons_of_neg (by simp [hw0])]
      rw [show (h0 :: (t0 ++ ['\n'])) = (h0 :: t0) ++ ['\n'] from rfl]
      rw [List.reverse_append]
      rw [show (['\n'].reverse ++ (h0 :: t0).reverse) =
        '\n' :: (h0 :: t0).reverse from by simp]
      rw [List.dropWhile_cons_of_pos (by decide)]
      rw [hdwr, List.reverse_reverse]
  unfold stripFencesL
  rw [houter, hjson, hticks, hfinal]

/-- C8 counterexample: the code strips every occurrence of the fence markers, not
only the surrounding ones.  For a fenced body that is a valid JSON object whose
string value contains a triple backtick, the spec-side stripping recovers the body
(which decodes to that object), while the code's stripping mangles the body and
decodes to a different object. -/
theorem c8_counterexample :
    stripSurroundingFences ("```json\n" ++ "\x7b\"pipeline_name\": \"a```b\"\x7d" ++ "\n```") =
      "\x7b\"pipeline_name\": \"a```b\"\x7d" ∧
    json_loads "\x7b\"pipeline_name\": \"a```b\"\x7d" =
      some (Json.obj [("pipeline_name", JVal.atom (JAtom.jstr "a```b"))]) ∧
    decide (stripFences ("```json\n" ++ "\x7b\"pipeline_name\": \"a```b\"\x7d" ++ "\n```") =
      "\x7b\"pipeline_name\": \"a```b\"\x7d") = false ∧
    json_loads (stripFences
        ("```json\n" ++ "\x7b\"pipeline_name\": \"a```b\"\x7d" ++ "\n```")) =
      some (Json.obj [("pipeline_name", JVal.atom (JAtom.jstr "ab"))]) :=
  ⟨by decide, by decide, by decide, by decide⟩

/-- C8 (amended): before decoding, the trimmed response has EVERY occurrence of
"(triple backtick)json" and of the triple backtick removed (not only the
surrounding markers), then is trimmed again; consequently, for every response
consisting of a fenced body that contains no triple-backtick sequence and no
surrounding whitespace, the text handed to the JSON decoder is exactly the body,
so a body that is a valid JSON object (of the modelled grammar) decodes to that
object. -/
theorem c8_fence_stripping (body : List Char) (j : Json)
    (hb : containsL tbq body = false)
    (hs : pyStripL body = body)
    (hj : json_loads (String.mk body) = some j) :
    stripFences (String.mk (fencePreL ++ body ++ fenceSufL)) = String.mk body ∧
    get_interpretation_from_gemini
        ⟨true, some (String.mk (fencePreL ++ body ++ fenceSufL))⟩ =
      Except.ok (some j) := by
  have hstrip : stripFences (String.mk (fencePreL ++ body ++ fenceSufL)) =
      String.mk body := by
    unfold stripFences
    rw [show (String.mk (fencePreL ++ body ++ fenceSufL)).data =
      fencePreL ++ body ++ fenceSufL from rfl]
    rw [stripFencesL_fenced body hb hs]
  refine ⟨hstrip, ?_⟩
  unfold get_interpretation_from_gemini
  simp only [Bool.not_true, Bool.false_eq_true, if_false]
  rw [hstrip, hj]

/-- Witness for C8 with the fenced empty JSON object. -/
theorem c8_fence_stripping_witness :
    stripFences (String.mk (fencePreL ++ "\x7b\x7d".data ++ fenceSufL)) =
      String.mk "\x7b\x7d".data ∧
    get_interpretation_from_gemini
        ⟨true, some (String.mk (fencePreL ++ "\x7b\x7d".data ++ fenceSufL))⟩ =
      Except.ok (some (Json.obj [])) :=
  c8_fence_stripping "\x7b\x7d".data (Json.obj []) (by decide) (by decide) (by decide)
